import Mathlib

/-!
# ESP32 BLE proximity system: scan / classify / record cycle

A shallow embedding of `src/main.cpp`: the global data (snapshot array, history
ring buffer, counters, scan timer), the scan callback `onResult`, `performScan`,
the three JSON handlers and the timer check of `loop`.

Conventions of the embedding

* C `int` values are `Int`.  Signed overflow is undefined behaviour in C++, so an
  increment that would leave the 32-bit range is reported as
  `Fault.signedOverflow` instead of producing a value.
* `unsigned long` is 32 bits wide on the ESP32; `millis()` readings and
  `lastScanTime` are `Nat`s and the arithmetic on them is reduced modulo `2^32`.
* The two global arrays have exactly 100 slots.  Every indexed access goes through
  `CArray.read` / `CArray.write`, which report `Fault.outOfBounds` for an index
  outside `[0, 100)`.
* What the environment supplies is an explicit argument: the devices the BLE stack
  delivers during `scan->start`, the result of the C library clock
  (`getLocalTime(&tm)` followed by `strftime`), and the `millis()` readings.
-/

namespace BLEProximity

/-! ## Configuration constants -/

def SCAN_INTERVAL : Int := 30
def SCAN_DURATION : Int := 5
def MAX_DEVICES : Int := 100
def MAX_HISTORY : Int := 100

/-- Largest value of a 32-bit C `int`. -/
def INT_MAX : Int := 2147483647

/-- Number of values of a 32-bit `unsigned long`. -/
def ULONG_RANGE : Nat := 4294967296

/-! ## Faults and fixed-size arrays -/

/-- The two ways a run can leave defined behaviour. -/
inductive Fault where
  | outOfBounds
  | signedOverflow
deriving DecidableEq, Repr

/-- A C array with exactly `n` slots. -/
abbrev CArray (α : Type) (n : Nat) := { l : List α // l.length = n }

/-- Checked element read `a[i]` for a C `int` index. -/
def CArray.read {α : Type} {n : Nat} (a : CArray α n) (i : Int) : Except Fault α :=
  if h : 0 ≤ i ∧ i.toNat < n then
    .ok (a.val.get ⟨i.toNat, by rw [a.property]; exact h.2⟩)
  else
    .error .outOfBounds

/-- Checked element write `a[i] = v` for a C `int` index. -/
def CArray.write {α : Type} {n : Nat} (a : CArray α n) (i : Int) (v : α) :
    Except Fault (CArray α n) :=
  if 0 ≤ i ∧ i.toNat < n then
    .ok ⟨a.val.set i.toNat v, by rw [List.length_set]; exact a.property⟩
  else
    .error .outOfBounds

/-- The statement `x++` on a C `int`. -/
def incr (x : Int) : Except Fault Int :=
  if x + 1 ≤ INT_MAX then .ok (x + 1) else .error .signedOverflow

/-! ## Data structures -/

structure DeviceData where
  mac : String
  name : String
  rssi : Int
  proximityLabel : String
  colorClass : String
deriving DecidableEq, Repr

structure HistoryRecord where
  timestampStr : String
  totalDevices : Int
  namedDevices : Int
deriving DecidableEq, Repr

/-- What `onResult` reads from the `BLEAdvertisedDevice` it is handed:
`getRSSI()`, `haveName()` with `getName().c_str()` (`none` when the device has no
name), and `getAddress().toString().c_str()`. -/
structure BLEAdvertisedDevice where
  rssi : Int
  name : Option String
  address : String
deriving DecidableEq, Repr

/-- The global variables of the sketch. -/
structure State where
  currentDevices : CArray DeviceData 100
  currentDeviceCount : Int
  historyDB : CArray HistoryRecord 100
  historyIndex : Int
  totalScans : Int
  lastScanTime : Nat
  scanInProgress : Bool
deriving DecidableEq

/-- Zero-initialised element of `currentDevices`. -/
def DeviceData.zero : DeviceData :=
  { mac := "", name := "", rssi := 0, proximityLabel := "", colorClass := "" }

/-- Zero-initialised element of `historyDB`. -/
def HistoryRecord.zero : HistoryRecord :=
  { timestampStr := "", totalDevices := 0, namedDevices := 0 }

/-- The globals as they are when `setup` returns. -/
def State.init : State :=
  { currentDevices := ⟨List.replicate 100 DeviceData.zero, List.length_replicate _ _⟩
    currentDeviceCount := 0
    historyDB := ⟨List.replicate 100 HistoryRecord.zero, List.length_replicate _ _⟩
    historyIndex := 0
    totalScans := 0
    lastScanTime := 0
    scanInProgress := false }

/-! ## Clock helper -/

/-- The helper `String getLocalTime()`.  The argument is the outcome of the C library call:
`none` when `getLocalTime(&timeinfo)` fails, `some t` with `t` the buffer that
`strftime` filled otherwise. -/
def getLocalTime (clock : Option String) : String :=
  match clock with
  | none => "Time Error"
  | some t => t

/-- The fields of the C `struct tm` that the format of `getLocalTime` reads, as
`getLocalTime(&timeinfo)` fills them on success: years counted from 1900, months
from 0, the other fields as shown on a clock. -/
structure Tm where
  tm_year : Nat
  tm_mon : Nat
  tm_mday : Nat
  tm_hour : Nat
  tm_min : Nat
  tm_sec : Nat
deriving DecidableEq, Repr

/-- A number below 100 written with two decimal digits. -/
def twoDigits (n : Nat) : String :=
  if n < 10 then "0" ++ toString n else toString n

/-- The text that `strftime` writes into the buffer of `getLocalTime` for the
format `"%Y-%m-%d %H:%M:%S"`. -/
def strftime (t : Tm) : String :=
  toString (t.tm_year + 1900) ++ "-" ++ twoDigits (t.tm_mon + 1) ++ "-"
    ++ twoDigits t.tm_mday ++ " " ++ twoDigits t.tm_hour ++ ":" ++ twoDigits t.tm_min
    ++ ":" ++ twoDigits t.tm_sec

/-- The clock outcome handed to `getLocalTime` when the library reports the
broken-down time `tm`, or fails (`none`). -/
def clockOutcome (tm : Option Tm) : Option String :=
  tm.map strftime

/-! ## BLE callback -/

/-- The proximity categorisation inside `onResult`: label and CSS class. -/
def classify (rssi : Int) : String × String :=
  if rssi > -65 then ("Present", "status-present")
  else if rssi > -85 then ("In Proximity", "status-proximity")
  else ("Far / Weak", "status-far")

/-- The element `onResult` stores for an advertised device. -/
def deviceEntry (d : BLEAdvertisedDevice) : DeviceData :=
  { mac := d.address
    name := match d.name with
      | some n => n
      | none => "Unknown"
    rssi := d.rssi
    proximityLabel := (classify d.rssi).1
    colorClass := (classify d.rssi).2 }

/-- The callback `MyAdvertisedDeviceCallbacks::onResult`.  The five field assignments to
`currentDevices[currentDeviceCount]` together overwrite the whole element. -/
def onResult (s : State) (d : BLEAdvertisedDevice) : Except Fault State :=
  if s.currentDeviceCount ≥ MAX_DEVICES then .ok s
  else do
    let arr ← s.currentDevices.write s.currentDeviceCount (deviceEntry d)
    let c ← incr s.currentDeviceCount
    pure { s with currentDevices := arr, currentDeviceCount := c }

/-- The call `scan->start(SCAN_DURATION, false)`: the BLE stack calls `onResult` once for
each device it delivers, in delivery order. -/
def scanStart : State → List BLEAdvertisedDevice → Except Fault State
  | s, [] => .ok s
  | s, d :: ds => do
    let s1 ← onResult s d
    scanStart s1 ds

/-! ## API handlers -/

/-- The loop `for (int i = 0; i < count; i++)` reading `a[i]` at every step. -/
def readFirst {α : Type} {n : Nat} (a : CArray α n) (count : Int) : Except Fault (List α) :=
  (List.range count.toNat).mapM (fun (i : Nat) => a.read (Int.ofNat i))

/-- The `lastScanTime` field written by `handleGetDevices`. -/
def lastScanTimeField (s : State) (clock : Option String) : String :=
  if s.lastScanTime = 0 then "Never" else getLocalTime clock

/-- The elements `handleGetDevices` reads for its `devices` array. -/
def devicesEmitted (s : State) : Except Fault (List DeviceData) :=
  readFirst s.currentDevices s.currentDeviceCount

/-- The elements `handleGetHistory` reads for its `history` array. -/
def historyEmitted (s : State) : Except Fault (List HistoryRecord) :=
  readFirst s.historyDB (min s.totalScans MAX_HISTORY)

/-- JSON text of one entry of the `devices` array. -/
def deviceJson (d : DeviceData) : String :=
  "\x7b" ++ "\"mac\":\"" ++ d.mac ++ "\"," ++ "\"name\":\"" ++ d.name ++ "\","
    ++ "\"rssi\":" ++ toString d.rssi ++ ","
    ++ "\"proximityLabel\":\"" ++ d.proximityLabel ++ "\","
    ++ "\"colorClass\":\"" ++ d.colorClass ++ "\"" ++ "\x7d"

/-- JSON text of one entry of the `history` array. -/
def historyJson (r : HistoryRecord) : String :=
  "\x7b" ++ "\"timestamp\":\"" ++ r.timestampStr ++ "\","
    ++ "\"total\":" ++ toString r.totalDevices ++ ","
    ++ "\"named\":" ++ toString r.namedDevices ++ "\x7d"

/-- The handler `handleGetDevices`: the JSON body sent to the client. -/
def handleGetDevices (s : State) (clock : Option String) : Except Fault String := do
  let ds ← devicesEmitted s
  pure ("\x7b" ++ "\"scanning\":" ++ (if s.scanInProgress then "true" else "false") ++ ","
    ++ "\"lastScanTime\":\"" ++ lastScanTimeField s clock ++ "\","
    ++ "\"devices\":[" ++ ",".intercalate (ds.map deviceJson) ++ "]\x7d")

/-- The handler `handleGetHistory`: the JSON body sent to the client. -/
def handleGetHistory (s : State) : Except Fault String := do
  let rs ← historyEmitted s
  pure ("\x7b" ++ "\"history\":[" ++ ",".intercalate (rs.map historyJson) ++ "]\x7d")

/-- The handler `handleManualScan`: the only effect on the globals is `lastScanTime = 0`. -/
def handleManualScan (s : State) : State :=
  { s with lastScanTime := 0 }

/-! ## Scan cycle and timer -/

/-- The loop in `performScan` that counts the snapshot entries whose name is not
`"Unknown"`, started with `namedCount = acc` at the indices in `is`. -/
def countNamed (s : State) : List Nat → Int → Except Fault Int
  | [], acc => .ok acc
  | i :: is, acc => do
    let d ← s.currentDevices.read (i : Int)
    let acc1 ← if d.name ≠ "Unknown" then incr acc else pure acc
    countNamed s is acc1

/-- The first two statements of `performScan`: `scanInProgress = true;
currentDeviceCount = 0;`. -/
def beginScan (s : State) : State :=
  { s with scanInProgress := true, currentDeviceCount := 0 }

/-- The function `performScan`.  `peers` are the devices delivered during
`scan->start`, `clock` is the clock outcome seen by `getLocalTime()`, and `ms` is the value of
`millis()` stored into `lastScanTime`. -/
def performScan (s : State) (peers : List BLEAdvertisedDevice) (clock : Option String)
    (ms : Nat) : Except Fault State := do
  let s2 ← scanStart (beginScan s) peers
  let namedCount ← countNamed s2 (List.range s2.currentDeviceCount.toNat) 0
  let idx := Int.tmod s2.historyIndex MAX_HISTORY
  let db ← s2.historyDB.write idx
    { timestampStr := getLocalTime clock
      totalDevices := s2.currentDeviceCount
      namedDevices := namedCount }
  let hi ← incr s2.historyIndex
  let ts ← incr s2.totalScans
  pure { s2 with
    historyDB := db
    historyIndex := hi
    totalScans := ts
    lastScanTime := ms % ULONG_RANGE
    scanInProgress := false }

/-- The condition `millis() - lastScanTime >= SCAN_INTERVAL * 1000` of `loop`,
evaluated in 32-bit unsigned arithmetic with `now` the value of `millis()`. -/
def timerDue (s : State) (now : Nat) : Bool :=
  decide ((((now : Int) - (s.lastScanTime : Int)) % (ULONG_RANGE : Int)) ≥ SCAN_INTERVAL * 1000)

/-- The timer check of `loop`: run `performScan` when the condition holds. -/
def loopPoll (s : State) (now : Nat) (peers : List BLEAdvertisedDevice)
    (clock : Option String) (ms : Nat) : Except Fault State :=
  if timerDue s now then performScan s peers clock ms else .ok s

/-- The requests served by `server.handleClient()`. -/
inductive Request where
  | root
  | historyPage
  | getDevices (clock : Option String)
  | getHistory
  | manualScan
deriving DecidableEq, Repr

/-- Effect of serving one request on the globals. -/
def handleClient (s : State) (r : Request) : Except Fault State :=
  match r with
  | .root => .ok s
  | .historyPage => .ok s
  | .getDevices clock => do
    let _ ← handleGetDevices s clock
    pure s
  | .getHistory => do
    let _ ← handleGetHistory s
    pure s
  | .manualScan => .ok (handleManualScan s)

/-- The summary of a scan cycle in terms of its inputs: clock string, snapshot
size `min K 100`, and the number of snapshot entries named other than
`"Unknown"`.  Used to state what `performScan` stores. -/
def summaryOf (peers : List BLEAdvertisedDevice) (clock : Option String) : HistoryRecord :=
  { timestampStr := getLocalTime clock
    totalDevices := ((min peers.length 100 : Nat) : Int)
    namedDevices := ((((peers.take 100).map deviceEntry).countP
      (fun d => decide (d.name ≠ "Unknown")) : Nat) : Int) }

/-- One iteration of `loop`: `server.handleClient()` serves the pending request,
if any, and then the timer check runs. -/
def loop (s : State) (req : Option Request) (now : Nat) (peers : List BLEAdvertisedDevice)
    (clock : Option String) (ms : Nat) : Except Fault State := do
  let s1 ← match req with
    | some r => handleClient s r
    | none => pure s
  loopPoll s1 now peers clock ms

/-! ## Reachable states -/

/-- Reachability, `Reach s log`: starting from `State.init` and interleaving
served requests with timer checks, the globals can be `s` after `log.length`
completed scan cycles, where `log` lists, oldest first, the record each cycle left in the slot
of `historyDB` it wrote. -/
inductive Reach : State → List HistoryRecord → Prop where
  | init : Reach State.init []
  | request {s s1 : State} {log : List HistoryRecord} (r : Request) :
      Reach s log → handleClient s r = .ok s1 → Reach s1 log
  | idle {s : State} {log : List HistoryRecord} (now : Nat) :
      Reach s log → timerDue s now = false → Reach s log
  | scan {s s1 : State} {log : List HistoryRecord} (now : Nat)
      (peers : List BLEAdvertisedDevice) (clock : Option String) (ms : Nat)
      (rec : HistoryRecord) :
      Reach s log → timerDue s now = true → loopPoll s now peers clock ms = .ok s1 →
      s1.historyDB.read (Int.tmod s.historyIndex MAX_HISTORY) = .ok rec →
      Reach s1 (log ++ [rec])

/-! ## Executable runs -/

/-- The environment inputs of one timer check: the `millis()` value compared with
`lastScanTime`, and, for the scan it may start, the delivered devices, the clock
outcome and the `millis()` value stored at the end. -/
structure ScanInput where
  now : Nat
  peers : List BLEAdvertisedDevice
  clock : Option String
  ms : Nat

/-- Run the timer check once per input, extending the scan log with the record
found in the slot each completed cycle wrote. -/
def runCycles : State → List HistoryRecord → List ScanInput →
    Except Fault (State × List HistoryRecord)
  | s, log, [] => .ok (s, log)
  | s, log, i :: is =>
    if timerDue s i.now then do
      let s1 ← loopPoll s i.now i.peers i.clock i.ms
      let rec ← s1.historyDB.read (Int.tmod s.historyIndex MAX_HISTORY)
      runCycles s1 (log ++ [rec]) is
    else runCycles s log is

/-- Inputs of `n` consecutive scan cycles, 30 s apart, none delivering a device;
cycle `k` (counted from 1) reads the clock string `"T"` followed by `k`. -/
def emptyCycles (n : Nat) : List ScanInput :=
  (List.range n).map (fun k =>
    { now := 30000 * (k + 1), peers := [], clock := some ("T" ++ toString (k + 1)),
      ms := 30000 * (k + 1) })

/-- State after the cycles of `emptyCycles n`, started from `State.init`. -/
def stateAfter (n : Nat) : State :=
  match runCycles State.init [] (emptyCycles n) with
  | .ok p => p.1
  | .error _ => State.init

/-- Scan log of the cycles of `emptyCycles n`. -/
def logAfter (n : Nat) : List HistoryRecord :=
  match runCycles State.init [] (emptyCycles n) with
  | .ok p => p.2
  | .error _ => []

/-- Five delivered devices, three of them named. -/
def fivePeers : List BLEAdvertisedDevice :=
  [ { rssi := -50, name := some "Tag A", address := "aa:00:00:00:00:01" },
    { rssi := -70, name := none, address := "aa:00:00:00:00:02" },
    { rssi := -90, name := some "Tag B", address := "aa:00:00:00:00:03" },
    { rssi := -65, name := none, address := "aa:00:00:00:00:04" },
    { rssi := -85, name := some "Tag C", address := "aa:00:00:00:00:05" } ]

/-- State after a first scan cycle that delivered `fivePeers` and stored
`millis() = 35000`. -/
def stateFive : State :=
  match performScan State.init fivePeers (some "2026-01-01 08:00:00") 35000 with
  | .ok s => s
  | .error _ => State.init

/-- The facts that hold of every reachable state `s` with scan log `log`. -/
structure Inv (s : State) (log : List HistoryRecord) : Prop where
  count_nonneg : 0 ≤ s.currentDeviceCount
  count_le : s.currentDeviceCount ≤ 100
  index_eq : s.historyIndex = (log.length : Int)
  total_eq : s.totalScans = (log.length : Int)
  length_le : (log.length : Int) ≤ INT_MAX
  ring : ∀ k, k < log.length → log.length ≤ k + 100 → s.historyDB.val[k % 100]? = log[k]?

/-! ## Array access lemmas -/

theorem CArray.read_ok {α : Type} {n : Nat} (a : CArray α n) (i : Nat) (h : i < n) :
    a.read (i : Int) = .ok (a.val.get ⟨i, by rw [a.property]; exact h⟩) := by
  simp [CArray.read, h]

theorem CArray.write_ok {α : Type} {n : Nat} (a : CArray α n) (i : Nat) (v : α) (h : i < n) :
    a.write (i : Int) v = .ok ⟨a.val.set i v, by rw [List.length_set]; exact a.property⟩ := by
  simp [CArray.write, h]

theorem readFirst_ok {α : Type} {n : Nat} (a : CArray α n) (m : Nat) (h : m ≤ n) :
    readFirst a (m : Int) = .ok (a.val.take m) := by
  unfold readFirst
  simp only [Int.toNat_ofNat]
  induction m with
  | zero => rfl
  | succ k ih =>
    have hk : k < n := h
    have hk2 : k < a.val.length := by rw [a.property]; exact hk
    rw [List.range_succ, List.mapM_append, ih (Nat.le_of_lt hk)]
    have := CArray.read_ok a k hk
    simp only [Int.ofNat_eq_coe, List.mapM_cons, List.mapM_nil, this]
    rw [List.take_succ, List.getElem?_eq_getElem hk2]
    rfl

theorem readFirst_nonpos {α : Type} {n : Nat} (a : CArray α n) (c : Int) (h : c ≤ 0) :
    readFirst a c = .ok [] := by
  unfold readFirst
  have : c.toNat = 0 := by omega
  rw [this]
  rfl

/-! ## The scan callback -/

theorem incr_ok (x : Int) (h : x < INT_MAX) : incr x = .ok (x + 1) := by
  have h2 : x + 1 ≤ INT_MAX := by omega
  simp [incr, h2]

theorem onResult_full (s : State) (d : BLEAdvertisedDevice) (h : 100 ≤ s.currentDeviceCount) :
    onResult s d = .ok s := by
  have h2 : s.currentDeviceCount ≥ MAX_DEVICES := h
  simp [onResult, h2]

theorem onResult_room (s : State) (d : BLEAdvertisedDevice) (c : Nat)
    (hc : s.currentDeviceCount = (c : Int)) (h : c < 100) :
    onResult s d = .ok { s with
      currentDevices := ⟨s.currentDevices.val.set c (deviceEntry d), by
        rw [List.length_set]; exact s.currentDevices.property⟩
      currentDeviceCount := (c : Int) + 1 } := by
  have h2 : ¬ s.currentDeviceCount ≥ MAX_DEVICES := by
    simp only [MAX_DEVICES, hc]; omega
  have h3 : (c : Int) < INT_MAX := by simp only [INT_MAX]; omega
  rw [onResult, if_neg h2, hc, CArray.write_ok _ c _ h, incr_ok _ h3]
  rfl

theorem take_succ_set {α : Type} (l : List α) (c : Nat) (e : α) (h : c < l.length) :
    (l.set c e).take (c + 1) = l.take c ++ [e] := by
  induction l generalizing c with
  | nil => simp at h
  | cons x xs ih =>
    cases c with
    | zero => simp
    | succ k =>
      simp only [List.length_cons, Nat.add_lt_add_iff_right] at h
      simp [ih k h]

theorem scanStart_full (peers : List BLEAdvertisedDevice) (s : State)
    (h : 100 ≤ s.currentDeviceCount) : scanStart s peers = .ok s := by
  induction peers with
  | nil => rfl
  | cons d ds ih =>
    simp only [scanStart, onResult_full s d h]
    exact ih

theorem scanStart_append (xs ys : List BLEAdvertisedDevice) (s : State) :
    scanStart s (xs ++ ys) = (scanStart s xs).bind (fun s1 => scanStart s1 ys) := by
  induction xs generalizing s with
  | nil => rfl
  | cons d ds ih =>
    simp only [List.cons_append, scanStart]
    cases h : onResult s d with
    | error e => rfl
    | ok s1 => exact ih s1

theorem scanStart_spec (peers : List BLEAdvertisedDevice) (s : State) (c : Nat)
    (hc : s.currentDeviceCount = (c : Int)) (h : c ≤ 100) :
    ∃ s2, scanStart s peers = .ok s2 ∧
      s2.currentDeviceCount = ((min (c + peers.length) 100 : Nat) : Int) ∧
      s2.currentDevices.val.take (min (c + peers.length) 100)
        = s.currentDevices.val.take c ++ (peers.take (100 - c)).map deviceEntry ∧
      s2.historyDB = s.historyDB ∧ s2.historyIndex = s.historyIndex ∧
      s2.totalScans = s.totalScans ∧ s2.lastScanTime = s.lastScanTime ∧
      s2.scanInProgress = s.scanInProgress := by
  induction peers generalizing s c with
  | nil =>
    refine ⟨s, rfl, ?_, ?_, rfl, rfl, rfl, rfl, rfl⟩
    · simp [hc, h]
    · simp [h]
  | cons d ds ih =>
    by_cases hlt : c < 100
    · obtain ⟨s2, h1, h2, h3, h4, h5, h6, h7, h8⟩ :=
        ih { s with
          currentDevices := ⟨s.currentDevices.val.set c (deviceEntry d), by
            rw [List.length_set]; exact s.currentDevices.property⟩
          currentDeviceCount := (c : Int) + 1 } (c + 1) rfl hlt
      refine ⟨s2, ?_, ?_, ?_, h4, h5, h6, h7, h8⟩
      · simp only [scanStart, onResult_room s d c hc hlt]
        exact h1
      · rw [h2]
        simp only [List.length_cons]
        congr 1
        omega
      · have e1 : min (c + (d :: ds).length) 100 = min (c + 1 + ds.length) 100 := by
          simp only [List.length_cons]; congr 1; omega
        have e2 : 100 - c = (100 - (c + 1)) + 1 := by omega
        have hlen : c < s.currentDevices.val.length := by
          rw [s.currentDevices.property]; exact hlt
        rw [e1, h3, e2, List.take_succ_cons, List.map_cons]
        simp only [take_succ_set _ c _ hlen, List.append_assoc, List.singleton_append]
    · have hc100 : c = 100 := by omega
      subst hc100
      refine ⟨s, scanStart_full _ s (by rw [hc]; rfl), ?_, ?_, rfl, rfl, rfl, rfl, rfl⟩
      · rw [hc]; simp
      · simp
/-! ## The scan cycle -/

theorem map_getD_range {α : Type} (l : List α) (z : α) (k : Nat) (h : k ≤ l.length) :
    (List.range k).map (fun i => l.getD i z) = l.take k := by
  induction k with
  | zero => rfl
  | succ j ih =>
    have hj : j < l.length := h
    rw [List.range_succ, List.map_append, ih (Nat.le_of_lt hj), List.take_succ,
      List.getElem?_eq_getElem hj]
    simp [List.getD_eq_getElem?_getD, List.getElem?_eq_getElem hj]

/-- The counting loop of `performScan` adds to its accumulator the number of
visited entries whose name is not `"Unknown"`. -/
theorem countNamed_spec (s : State) (is : List Nat) (acc : Int)
    (hb : ∀ i ∈ is, i < 100) (hacc : acc + (is.length : Int) ≤ INT_MAX) :
    countNamed s is acc = .ok (acc + (((is.map
      (fun i => s.currentDevices.val.getD i DeviceData.zero)).countP
        (fun d => decide (d.name ≠ "Unknown")) : Nat) : Int)) := by
  induction is generalizing acc with
  | nil => simp [countNamed]
  | cons i rest ih =>
    have hi : i < 100 := hb i (List.mem_cons_self _ _)
    have hrest : ∀ j ∈ rest, j < 100 := fun j hj => hb j (List.mem_cons_of_mem _ hj)
    have hlen : i < s.currentDevices.val.length := by rw [s.currentDevices.property]; exact hi
    have hget : s.currentDevices.val.get ⟨i, hlen⟩ = s.currentDevices.val.getD i DeviceData.zero := by
      simp [List.getD_eq_getElem?_getD, List.getElem?_eq_getElem hlen]
    have hacc2 : acc + (rest.length : Int) + 1 ≤ INT_MAX := by
      simp only [List.length_cons, Nat.cast_add, Nat.cast_one] at hacc
      omega
    rw [countNamed, CArray.read_ok _ i hi, hget, List.map_cons, List.countP_cons]
    by_cases hn : (s.currentDevices.val.getD i DeviceData.zero).name ≠ "Unknown"
    · have hlt : acc < INT_MAX := by omega
      have h1 := ih (acc + 1) hrest (by omega)
      simp only [bind, Except.bind, if_pos hn, incr_ok _ hlt, h1, decide_eq_true hn, if_true]
      congr 1
      push_cast
      omega
    · have h1 := ih acc hrest (by omega)
      simp only [bind, Except.bind, pure, Except.pure, if_neg hn, h1, decide_eq_false hn]
      simp

theorem tmod_hundred (h : Nat) : Int.tmod (h : Int) MAX_HISTORY = ((h % 100 : Nat) : Int) := rfl

/-- A scan cycle started with a history index in `[0, INT_MAX)` and a scan counter
below `INT_MAX` completes, and this is the state it leaves. -/
theorem performScan_ok (s : State) (peers : List BLEAdvertisedDevice) (clock : Option String)
    (ms : Nat) (h : Nat) (hh : s.historyIndex = (h : Int)) (hlt : (h : Int) < INT_MAX)
    (ht : s.totalScans < INT_MAX) :
    ∃ s1, performScan s peers clock ms = .ok s1 ∧
      s1.currentDeviceCount = ((min peers.length 100 : Nat) : Int) ∧
      s1.currentDevices.val.take (min peers.length 100) = (peers.take 100).map deviceEntry ∧
      s1.historyDB.val = s.historyDB.val.set (h % 100) (summaryOf peers clock) ∧
      s1.historyIndex = s.historyIndex + 1 ∧
      s1.totalScans = s.totalScans + 1 ∧
      s1.lastScanTime = ms % ULONG_RANGE ∧
      s1.scanInProgress = false := by
  obtain ⟨s2, e1, e2, e3, e4, e5, e6, -, -⟩ :=
    scanStart_spec peers (beginScan s) 0 rfl (by omega)
  have hmin : min (0 + peers.length) 100 = min peers.length 100 := by rw [Nat.zero_add]
  rw [hmin] at e2 e3
  simp only [List.take_zero, List.nil_append, Nat.sub_zero] at e3
  change s2.historyDB = s.historyDB at e4
  change s2.historyIndex = s.historyIndex at e5
  change s2.totalScans = s.totalScans at e6
  have hk : min peers.length 100 ≤ 100 := Nat.min_le_right _ _
  have hcount := countNamed_spec s2 (List.range (min peers.length 100)) 0
    (fun i hi => by rw [List.mem_range] at hi; omega)
    (by simp only [List.length_range, INT_MAX]; omega)
  rw [map_getD_range _ _ _ (by rw [s2.currentDevices.property]; exact hk), e3, Int.zero_add]
    at hcount
  have hidx : h % 100 < 100 := Nat.mod_lt _ (by omega)
  have hi2 : s2.historyIndex = (h : Int) := by rw [e5]; exact hh
  have hinc1 : incr s2.historyIndex = .ok (s.historyIndex + 1) := by
    rw [e5]; exact incr_ok _ (by rw [hh]; exact hlt)
  have hinc2 : incr s2.totalScans = .ok (s.totalScans + 1) := by
    rw [e6]; exact incr_ok _ ht
  refine ⟨{ s2 with
      historyDB := ⟨s2.historyDB.val.set (h % 100) (summaryOf peers clock), by
        rw [List.length_set]; exact s2.historyDB.property⟩
      historyIndex := s.historyIndex + 1
      totalScans := s.totalScans + 1
      lastScanTime := ms % ULONG_RANGE
      scanInProgress := false }, ?_, e2, e3, ?_, rfl, rfl, rfl, rfl⟩
  · unfold performScan
    rw [e1]
    simp only [bind, Except.bind]
    rw [hinc1, hinc2, e2, Int.toNat_ofNat, hcount]
    simp only []
    rw [hi2, tmod_hundred, CArray.write_ok _ _ _ hidx]
    rfl
  · show s2.historyDB.val.set (h % 100) (summaryOf peers clock) = _
    rw [e4]

/-! ## Invariants of reachable states -/

theorem CArray.read_nat {α : Type} {n : Nat} (a : CArray α n) (i : Nat) (x : α)
    (h : a.read (i : Int) = .ok x) : a.val[i]? = some x := by
  by_cases hi : i < n
  · rw [CArray.read_ok a i hi] at h
    have hlen : i < a.val.length := by rw [a.property]; exact hi
    rw [List.getElem?_eq_getElem hlen]
    cases h
    simp
  · have hn : ¬ ((0 : Int) ≤ (i : Int) ∧ (i : Int).toNat < n) := by
      simp only [Int.toNat_ofNat]
      exact fun hc => hi hc.2
    simp only [CArray.read, hn, dite_false] at h
    cases h

theorem incr_overflow (x : Int) (h : INT_MAX ≤ x) : incr x = .error .signedOverflow := by
  have h2 : ¬ x + 1 ≤ INT_MAX := by omega
  simp [incr, h2]

/-- A scan cycle started with `historyIndex` at `INT_MAX` or above stops at the
increment of `historyIndex`, after an in-bounds write of the summary. -/
theorem performScan_overflow (s : State) (peers : List BLEAdvertisedDevice)
    (clock : Option String) (ms : Nat) (h : Nat) (hh : s.historyIndex = (h : Int))
    (hge : INT_MAX ≤ (h : Int)) :
    performScan s peers clock ms = .error .signedOverflow := by
  obtain ⟨s2, e1, e2, e3, e4, e5, e6, -, -⟩ :=
    scanStart_spec peers (beginScan s) 0 rfl (by omega)
  have hmin : min (0 + peers.length) 100 = min peers.length 100 := by rw [Nat.zero_add]
  rw [hmin] at e2 e3
  change s2.historyIndex = s.historyIndex at e5
  have hk : min peers.length 100 ≤ 100 := Nat.min_le_right _ _
  have hcount := countNamed_spec s2 (List.range (min peers.length 100)) 0
    (fun i hi => by rw [List.mem_range] at hi; omega)
    (by simp only [List.length_range, INT_MAX]; omega)
  have hidx : h % 100 < 100 := Nat.mod_lt _ (by omega)
  have hi2 : s2.historyIndex = (h : Int) := by rw [e5]; exact hh
  have hinc1 : incr s2.historyIndex = .error .signedOverflow := by
    rw [hi2]; exact incr_overflow _ hge
  unfold performScan
  rw [e1]
  simp only [bind, Except.bind]
  rw [hinc1, e2, Int.toNat_ofNat, hcount]
  simp only []
  rw [hi2, tmod_hundred, CArray.write_ok _ _ _ hidx]

theorem handleClient_state (s s1 : State) (r : Request) (h : handleClient s r = .ok s1) :
    s1 = s ∨ s1 = handleManualScan s := by
  cases r with
  | root => left; cases h; rfl
  | historyPage => left; cases h; rfl
  | getDevices clock =>
    left
    simp only [handleClient, bind, Except.bind] at h
    cases hd : handleGetDevices s clock with
    | error e => rw [hd] at h; cases h
    | ok b => rw [hd] at h; cases h; rfl
  | getHistory =>
    left
    simp only [handleClient, bind, Except.bind] at h
    cases hd : handleGetHistory s with
    | error e => rw [hd] at h; cases h
    | ok b => rw [hd] at h; cases h; rfl
  | manualScan => right; cases h; rfl

theorem Inv.manual {s : State} {log : List HistoryRecord} (h : Inv s log) :
    Inv (handleManualScan s) log :=
  ⟨h.count_nonneg, h.count_le, h.index_eq, h.total_eq, h.length_le, h.ring⟩

/-- What a completed scan cycle does to a state satisfying the invariant. -/
theorem Inv.scan_step {s s1 : State} {log : List HistoryRecord} (hinv : Inv s log)
    (peers : List BLEAdvertisedDevice) (clock : Option String) (ms : Nat)
    (hps : performScan s peers clock ms = .ok s1) :
    (log.length : Int) < INT_MAX ∧
    s1.currentDeviceCount = ((min peers.length 100 : Nat) : Int) ∧
    s1.currentDevices.val.take (min peers.length 100) = (peers.take 100).map deviceEntry ∧
    s1.historyDB.val = s.historyDB.val.set (log.length % 100) (summaryOf peers clock) ∧
    s1.historyIndex = s.historyIndex + 1 ∧
    s1.totalScans = s.totalScans + 1 ∧
    s1.lastScanTime = ms % ULONG_RANGE ∧
    s1.scanInProgress = false := by
  have hlt : (log.length : Int) < INT_MAX := by
    by_contra hc
    have := performScan_overflow s peers clock ms log.length hinv.index_eq (by omega)
    rw [this] at hps
    cases hps
  obtain ⟨s2, h1, rest⟩ := performScan_ok s peers clock ms log.length hinv.index_eq hlt
    (by rw [hinv.total_eq]; exact hlt)
  rw [hps] at h1
  cases h1
  exact ⟨hlt, rest⟩

theorem reach_inv {s : State} {log : List HistoryRecord} (h : Reach s log) : Inv s log := by
  induction h with
  | init =>
    refine ⟨by decide, by decide, rfl, rfl, by decide, ?_⟩
    intro k hk
    simp at hk
  | request r _ hc ih =>
    rcases handleClient_state _ _ r hc with h1 | h1
    · rw [h1]; exact ih
    · rw [h1]; exact ih.manual
  | idle now _ _ ih => exact ih
  | @scan s s1 log now peers clock ms rec _ hdue hpoll hread ih =>
    have hps : performScan s peers clock ms = .ok s1 := by
      simpa only [loopPoll, hdue, if_true] using hpoll
    obtain ⟨hlt, c1, -, c3, c4, c5, -, -⟩ := ih.scan_step peers clock ms hps
    have hlen : log.length % 100 < s.historyDB.val.length := by
      rw [s.historyDB.property]; exact Nat.mod_lt _ (by omega)
    have hrec : rec = summaryOf peers clock := by
      rw [ih.index_eq, tmod_hundred] at hread
      have := CArray.read_nat _ _ _ hread
      rw [c3, List.getElem?_set_self hlen] at this
      cases this
      rfl
    refine ⟨by rw [c1]; omega, by rw [c1]; omega, ?_, ?_, ?_, ?_⟩
    · rw [c4, ih.index_eq]; simp
    · rw [c5, ih.total_eq]; simp
    · simp only [List.length_append, List.length_singleton, Nat.cast_add, Nat.cast_one]
      omega
    · intro k hk hk2
      simp only [List.length_append, List.length_singleton] at hk hk2
      rw [c3]
      by_cases hkn : k = log.length
      · subst hkn
        rw [List.getElem?_set_self hlen, List.getElem?_append_right (Nat.le_refl _), hrec]
        simp
      · have hk3 : k < log.length := by omega
        have hne : log.length % 100 ≠ k % 100 := by omega
        rw [List.getElem?_set_ne hne, List.getElem?_append_left hk3]
        exact ih.ring k hk3 (by omega)

/-! ## What the history handler reads -/

theorem historyEmitted_eq {s : State} {log : List HistoryRecord} (h : Inv s log) :
    historyEmitted s = .ok (s.historyDB.val.take (min log.length 100)) := by
  unfold historyEmitted
  have e : min s.totalScans MAX_HISTORY = ((min log.length 100 : Nat) : Int) := by
    rw [h.total_eq]
    simp only [MAX_HISTORY]
    omega
  rw [e]
  exact readFirst_ok _ _ (Nat.min_le_right _ _)

/-- Up to 100 completed cycles the handler reads the log itself, oldest first. -/
theorem historyEmitted_before_wrap {s : State} {log : List HistoryRecord} (h : Inv s log)
    (hn : log.length ≤ 100) : historyEmitted s = .ok log := by
  rw [historyEmitted_eq h]
  congr 1
  apply List.ext_getElem?
  intro i
  rw [List.getElem?_take]
  by_cases hi : i < log.length
  · have h1 : i < min log.length 100 := by omega
    have h2 := h.ring i hi (by omega)
    rw [Nat.mod_eq_of_lt (by omega)] at h2
    rw [if_pos h1, h2]
  · have h1 : ¬ i < min log.length 100 := by omega
    rw [if_neg h1, List.getElem?_eq_none (by omega)]

/-- From 100 completed cycles on, the handler reads the slots in array order: the
`n % 100` newest records first, then the `100 - n % 100` oldest retained ones. -/
theorem historyEmitted_after_wrap {s : State} {log : List HistoryRecord} (h : Inv s log)
    (hn : 100 ≤ log.length) :
    historyEmitted s = .ok (log.drop (log.length - log.length % 100) ++
      (log.drop (log.length - 100)).take (100 - log.length % 100)) := by
  rw [historyEmitted_eq h]
  congr 1
  apply List.ext_getElem?
  intro i
  have hr : log.length % 100 < 100 := Nat.mod_lt _ (by omega)
  have hdl : (log.drop (log.length - log.length % 100)).length = log.length % 100 := by
    rw [List.length_drop]; omega
  rw [List.getElem?_take]
  by_cases hi : i < 100
  · have h1 : i < min log.length 100 := by omega
    rw [if_pos h1]
    by_cases hir : i < log.length % 100
    · rw [List.getElem?_append_left (by rw [hdl]; exact hir), List.getElem?_drop]
      have h2 := h.ring (log.length - log.length % 100 + i) (by omega) (by omega)
      have h3 : (log.length - log.length % 100 + i) % 100 = i := by omega
      rw [h3] at h2
      exact h2
    · rw [List.getElem?_append_right (by rw [hdl]; omega), hdl, List.getElem?_take,
        if_pos (by omega), List.getElem?_drop]
      have h2 := h.ring (log.length - 100 + (i - log.length % 100)) (by omega) (by omega)
      have h3 : (log.length - 100 + (i - log.length % 100)) % 100 = i := by omega
      rw [h3] at h2
      exact h2
  · have h1 : ¬ i < min log.length 100 := by omega
    rw [if_neg h1]
    symm
    apply List.getElem?_eq_none
    rw [List.length_append, hdl, List.length_take, List.length_drop]
    omega

/-! ## Executable runs are reachable -/

theorem reach_runCycles (is : List ScanInput) :
    ∀ (s s1 : State) (log log1 : List HistoryRecord), Reach s log →
      runCycles s log is = .ok (s1, log1) → Reach s1 log1 := by
  induction is with
  | nil =>
    intro s s1 log log1 hr h
    simp only [runCycles, Except.ok.injEq, Prod.mk.injEq] at h
    rw [← h.1, ← h.2]
    exact hr
  | cons i rest ih =>
    intro s s1 log log1 hr h
    by_cases hdue : timerDue s i.now = true
    · simp only [runCycles, hdue, if_true, bind, Except.bind] at h
      cases hp : loopPoll s i.now i.peers i.clock i.ms with
      | error e => rw [hp] at h; cases h
      | ok s2 =>
        rw [hp] at h
        simp only [] at h
        cases hrd : s2.historyDB.read (Int.tmod s.historyIndex MAX_HISTORY) with
        | error e => rw [hrd] at h; cases h
        | ok rec =>
          rw [hrd] at h
          exact ih s2 s1 (log ++ [rec]) log1 (Reach.scan i.now i.peers i.clock i.ms rec hr hdue hp hrd) h
    · simp only [runCycles, hdue, if_false] at h
      have hf : timerDue s i.now = false := by simpa using hdue
      exact ih s s1 log log1 (Reach.idle i.now hr hf) h

theorem reach_after (n : Nat)
    (h : (runCycles State.init [] (emptyCycles n)).toBool = true) :
    Reach (stateAfter n) (logAfter n) := by
  unfold stateAfter logAfter
  cases hrun : runCycles State.init [] (emptyCycles n) with
  | error e => rw [hrun] at h; cases h
  | ok p => exact reach_runCycles _ _ _ _ _ Reach.init hrun

set_option maxRecDepth 100000 in
theorem reach_after_one : Reach (stateAfter 1) (logAfter 1) := reach_after 1 (by decide)

set_option maxRecDepth 100000 in
theorem reach_after_three : Reach (stateAfter 3) (logAfter 3) := reach_after 3 (by decide)

set_option maxRecDepth 100000 in
theorem reach_after_wrap : Reach (stateAfter 101) (logAfter 101) := reach_after 101 (by decide)

set_option maxRecDepth 100000 in
theorem logAfter_one_length : (logAfter 1).length = 1 := by decide

set_option maxRecDepth 100000 in
theorem logAfter_wrap_length : (logAfter 101).length = 101 := by decide

set_option maxRecDepth 100000 in
theorem logAfter_wrap_stamps :
    (logAfter 101).map (fun r => r.timestampStr)
      = (List.range 101).map (fun k => "T" ++ toString (k + 1)) := by decide

set_option maxRecDepth 100000 in
theorem logAfter_wrap_distinct : (logAfter 101)[100]? ≠ (logAfter 101)[1]? := by decide

/-! ## Iterations of `loop` stay reachable -/

theorem reach_loop {s s1 : State} {log : List HistoryRecord} (hr : Reach s log)
    (req : Option Request) (now : Nat) (peers : List BLEAdvertisedDevice)
    (clock : Option String) (ms : Nat) (h : loop s req now peers clock ms = .ok s1) :
    ∃ log1, Reach s1 log1 := by
  have step : ∀ s0 : State, Reach s0 log → loopPoll s0 now peers clock ms = .ok s1 →
      ∃ log1, Reach s1 log1 := by
    intro s0 hr0 hp
    by_cases hdue : timerDue s0 now = true
    · have hps : performScan s0 peers clock ms = .ok s1 := by
        simpa only [loopPoll, hdue, if_true] using hp
      have hinv := reach_inv hr0
      obtain ⟨-, -, -, c3, -⟩ := hinv.scan_step peers clock ms hps
      have hidx : log.length % 100 < 100 := Nat.mod_lt _ (by omega)
      have hrd := CArray.read_ok s1.historyDB (log.length % 100) hidx
      rw [← tmod_hundred, ← hinv.index_eq] at hrd
      exact ⟨_, Reach.scan now peers clock ms _ hr0 hdue hp hrd⟩
    · have hf : timerDue s0 now = false := by simpa using hdue
      simp only [loopPoll, hf] at hp
      cases hp
      exact ⟨log, hr0⟩
  cases req with
  | none => exact step s hr h
  | some r =>
    simp only [loop, bind, Except.bind] at h
    cases hc : handleClient s r with
    | error e => rw [hc] at h; cases h
    | ok s0 =>
      rw [hc] at h
      exact step s0 (Reach.request r hr hc) h

/-! ## Clock strings and evaluated handler bodies -/

theorem strftime_ne_never (t : Tm) : strftime t ≠ "Never" := by
  intro h
  have hmem : '-' ∈ (strftime t).data := by
    simp [strftime, String.data_append]
  rw [h] at hmem
  revert hmem
  decide

theorem getLocalTime_outcome_ne_never (tm : Option Tm) :
    getLocalTime (clockOutcome tm) ≠ "Never" := by
  cases tm with
  | none => decide
  | some t => exact strftime_ne_never t

set_option maxRecDepth 100000 in
theorem logAfter_three_length : (logAfter 3).length = 3 := by decide

set_option maxRecDepth 100000 in
theorem historyEmitted_three :
    historyEmitted (stateAfter 3) = .ok
      [ { timestampStr := "T1", totalDevices := 0, namedDevices := 0 },
        { timestampStr := "T2", totalDevices := 0, namedDevices := 0 },
        { timestampStr := "T3", totalDevices := 0, namedDevices := 0 } ] := by
  rfl

set_option maxRecDepth 100000 in
theorem history_three_text :
    "\x7b" ++ "\"history\":[" ++ ",".intercalate (List.map historyJson
      [ { timestampStr := "T1", totalDevices := 0, namedDevices := 0 },
        { timestampStr := "T2", totalDevices := 0, namedDevices := 0 },
        { timestampStr := "T3", totalDevices := 0, namedDevices := 0 } ]) ++ "]\x7d"
    = "\x7b\"history\":[\x7b\"timestamp\":\"T1\",\"total\":0,\"named\":0\x7d,"
      ++ "\x7b\"timestamp\":\"T2\",\"total\":0,\"named\":0\x7d,"
      ++ "\x7b\"timestamp\":\"T3\",\"total\":0,\"named\":0\x7d]\x7d" := by
  decide

set_option maxRecDepth 100000 in
theorem stateFive_counters :
    stateFive.lastScanTime = 35000 ∧ stateFive.totalScans = 1 ∧
    stateFive.scanInProgress = false := by
  decide

set_option maxRecDepth 100000 in
theorem stateFive_devices :
    devicesEmitted stateFive = .ok (fivePeers.map deviceEntry) := by
  rfl

set_option maxRecDepth 100000 in
theorem five_devices_text :
    ",".intercalate ((fivePeers.map deviceEntry).map deviceJson)
    = "\x7b\"mac\":\"aa:00:00:00:00:01\",\"name\":\"Tag A\",\"rssi\":-50,"
      ++ "\"proximityLabel\":\"Present\",\"colorClass\":\"status-present\"\x7d,"
      ++ "\x7b\"mac\":\"aa:00:00:00:00:02\",\"name\":\"Unknown\",\"rssi\":-70,"
      ++ "\"proximityLabel\":\"In Proximity\",\"colorClass\":\"status-proximity\"\x7d,"
      ++ "\x7b\"mac\":\"aa:00:00:00:00:03\",\"name\":\"Tag B\",\"rssi\":-90,"
      ++ "\"proximityLabel\":\"Far / Weak\",\"colorClass\":\"status-far\"\x7d,"
      ++ "\x7b\"mac\":\"aa:00:00:00:00:04\",\"name\":\"Unknown\",\"rssi\":-65,"
      ++ "\"proximityLabel\":\"In Proximity\",\"colorClass\":\"status-proximity\"\x7d,"
      ++ "\x7b\"mac\":\"aa:00:00:00:00:05\",\"name\":\"Tag C\",\"rssi\":-85,"
      ++ "\"proximityLabel\":\"Far / Weak\",\"colorClass\":\"status-far\"\x7d" := by
  decide

/-! ## Classification -/

/-- C1: for every integer signal strength the categorisation in `onResult` gives
one label/tag pair determined by the strength alone: above -65 the tier Present
with tag "status-present"; above -85 and at most -65 the tier InProximity (label
"In Proximity") with tag "status-proximity"; at most -85 the tier Far (shown with
the label "Far / Weak") with tag "status-far".  The four boundary values -64, -65,
-84 and -85 fall into Present, InProximity, InProximity and Far. -/
theorem classify_tiers :
    (∀ s : Int, s > -65 → classify s = ("Present", "status-present")) ∧
    (∀ s : Int, -85 < s → s ≤ -65 → classify s = ("In Proximity", "status-proximity")) ∧
    (∀ s : Int, s ≤ -85 → classify s = ("Far / Weak", "status-far")) ∧
    classify (-64) = ("Present", "status-present") ∧
    classify (-65) = ("In Proximity", "status-proximity") ∧
    classify (-84) = ("In Proximity", "status-proximity") ∧
    classify (-85) = ("Far / Weak", "status-far") ∧
    (∀ d : BLEAdvertisedDevice,
      (deviceEntry d).proximityLabel = (classify d.rssi).1 ∧
      (deviceEntry d).colorClass = (classify d.rssi).2) := by
  refine ⟨?_, ?_, ?_, ?_, ?_, ?_, ?_, ?_⟩
  · intro s h
    simp [classify, h]
  · intro s h1 h2
    have h3 : ¬ s > -65 := by omega
    simp [classify, h3, h1]
  · intro s h
    have h1 : ¬ s > -65 := by omega
    have h2 : ¬ s > -85 := by omega
    simp [classify, h1, h2]
  · decide
  · decide
  · decide
  · decide
  · intro d
    exact ⟨rfl, rfl⟩


/-! ## Snapshot of one scan cycle -/

/-- C2: from every starting state and for every sequence of delivered devices,
resetting the count and running `onResult` once per device succeeds, leaves
`currentDeviceCount = min K 100`, and the snapshot read back by the devices
handler is exactly the first `min K 100` delivered devices in delivery order,
each stored as address, name (or "Unknown"), rssi and the label and tag that
`classify` gives for that rssi.  Devices after the 100th change nothing: the final state is
the one reached from the first 100 alone. -/
theorem scan_snapshot (s : State) (peers : List BLEAdvertisedDevice) :
    ∃ s2, scanStart (beginScan s) peers = .ok s2 ∧
      s2.currentDeviceCount = ((min peers.length 100 : Nat) : Int) ∧
      devicesEmitted s2 = .ok ((peers.take 100).map deviceEntry) ∧
      ((peers.take 100).map deviceEntry).length = min peers.length 100 ∧
      scanStart (beginScan s) (peers.take 100) = .ok s2 ∧
      (∀ d : BLEAdvertisedDevice, deviceEntry d =
        { mac := d.address, name := d.name.getD "Unknown", rssi := d.rssi,
          proximityLabel := (classify d.rssi).1, colorClass := (classify d.rssi).2 }) := by
  obtain ⟨s2, h1, h2, h3, -⟩ := scanStart_spec peers (beginScan s) 0 rfl (by omega)
  have hmin : min (0 + peers.length) 100 = min peers.length 100 := by rw [Nat.zero_add]
  rw [hmin] at h2 h3
  refine ⟨s2, h1, h2, ?_, ?_, ?_, ?_⟩
  · unfold devicesEmitted
    rw [h2, readFirst_ok _ _ (by omega), h3]
    simp
  · simp [List.length_take, Nat.min_comm]
  · have happ := scanStart_append (peers.take 100) (peers.drop 100) (beginScan s)
    rw [List.take_append_drop, h1] at happ
    cases h : scanStart (beginScan s) (peers.take 100) with
    | error e => rw [h] at happ; cases happ
    | ok s3 =>
      rw [h] at happ
      by_cases hlen : peers.length ≤ 100
      · rw [List.drop_eq_nil_of_le hlen] at happ
        exact happ.symm
      · obtain ⟨s4, h5, h6, -⟩ := scanStart_spec (peers.take 100) (beginScan s) 0 rfl (by omega)
        rw [h] at h5
        cases h5
        have hfull : 100 ≤ s3.currentDeviceCount := by
          rw [h6]
          simp only [List.length_take]
          omega
        have := scanStart_full (peers.drop 100) s3 hfull
        simp only [Except.bind] at happ
        rw [this] at happ
        exact happ.symm
  · intro d
    cases d with
    | mk rssi name address =>
      cases name <;> rfl

/-! ## History endpoint -/

/-- C3 (divergence): in every reachable state with exactly 101 completed scan
cycles the history handler reads the record of cycle 101 first, followed by the
records of cycles 2 to 100; this is not the oldest-to-newest list of cycles 2 to
101 whenever the records of cycles 101 and 2 differ.  The record of cycle 1 is
gone. -/
theorem history_after_101 (s : State) (log : List HistoryRecord) (hr : Reach s log)
    (hn : log.length = 101) :
    historyEmitted s = .ok (log.drop 100 ++ (log.drop 1).take 99) ∧
    (log[100]? ≠ log[1]? → historyEmitted s ≠ .ok (log.drop 1)) := by
  have h := historyEmitted_after_wrap (reach_inv hr) (by omega)
  have e1 : log.length - log.length % 100 = 100 := by omega
  have e2 : log.length - 100 = 1 := by omega
  have e3 : 100 - log.length % 100 = 99 := by omega
  rw [e1, e2, e3] at h
  refine ⟨h, ?_⟩
  intro hne hc
  rw [h] at hc
  have hc2 := congrArg (fun x => match x with
    | Except.ok l => l[0]?
    | Except.error _ => none) hc
  simp only [] at hc2
  have hd : (log.drop 100).length = 1 := by rw [List.length_drop]; omega
  rw [List.getElem?_append_left (by omega), List.getElem?_drop, List.getElem?_drop] at hc2
  exact hne hc2

/-- Instance of `history_after_101`: 101 cycles stamped T1, ..., T101. -/
theorem history_after_101_witness :
    Reach (stateAfter 101) (logAfter 101) ∧ (logAfter 101).length = 101 ∧
    (logAfter 101).map (fun r => r.timestampStr)
      = (List.range 101).map (fun k => "T" ++ toString (k + 1)) ∧
    historyEmitted (stateAfter 101)
      = .ok ((logAfter 101).drop 100 ++ ((logAfter 101).drop 1).take 99) ∧
    historyEmitted (stateAfter 101) ≠ .ok ((logAfter 101).drop 1) :=
  ⟨reach_after_wrap, logAfter_wrap_length, logAfter_wrap_stamps,
    (history_after_101 _ _ reach_after_wrap logAfter_wrap_length).1,
    (history_after_101 _ _ reach_after_wrap logAfter_wrap_length).2 logAfter_wrap_distinct⟩

/-- C4: in every reachable state `totalScans` is the number of scan cycles
completed so far, and the body sent by `handleGetHistory` is the JSON text of
exactly `min totalScans 100` entries: the entries read from `historyDB`, one
object each, between the brackets of the `history` array. -/
theorem history_count (s : State) (log : List HistoryRecord) (hr : Reach s log) :
    s.totalScans = (log.length : Int) ∧
    ∃ rs, historyEmitted s = .ok rs ∧ rs.length = min log.length 100 ∧
      (rs.length : Int) = min s.totalScans 100 ∧
      handleGetHistory s = .ok
        ("\x7b" ++ "\"history\":[" ++ ",".intercalate (rs.map historyJson) ++ "]\x7d") ∧
      (rs.map historyJson).length = min log.length 100 := by
  have hinv := reach_inv hr
  have hlen : (s.historyDB.val.take (min log.length 100)).length = min log.length 100 := by
    rw [List.length_take, s.historyDB.property]
    omega
  refine ⟨hinv.total_eq, _, historyEmitted_eq hinv, hlen, ?_, ?_, ?_⟩
  · rw [hlen, hinv.total_eq]
    omega
  · unfold handleGetHistory
    rw [historyEmitted_eq hinv]
    rfl
  · rw [List.length_map, hlen]

/-- Instance of `history_count` after three scan cycles: the handler sends three
entries. -/
theorem history_count_witness :
    Reach (stateAfter 3) (logAfter 3) ∧ (stateAfter 3).totalScans = 3 ∧
    handleGetHistory (stateAfter 3) = .ok
      ("\x7b\"history\":[\x7b\"timestamp\":\"T1\",\"total\":0,\"named\":0\x7d,"
      ++ "\x7b\"timestamp\":\"T2\",\"total\":0,\"named\":0\x7d,"
      ++ "\x7b\"timestamp\":\"T3\",\"total\":0,\"named\":0\x7d]\x7d") := by
  have h := history_count _ _ reach_after_three
  obtain ⟨rs, h1, -, -, h4, -⟩ := h.2
  rw [historyEmitted_three] at h1
  cases h1
  refine ⟨reach_after_three, ?_, ?_⟩
  · rw [h.1, logAfter_three_length]
    rfl
  · rw [h4, history_three_text]

/-! ## Scan cycle summary -/

/-- C5: in every reachable state (with `log.length` completed cycles) a scan
cycle that completes overwrites exactly the slot `log.length % 100` of
`historyDB` with a record whose timestamp is the clock string, whose total is
the size of the snapshot just built (`min K 100`) and whose named count is the
number of snapshot entries named other than "Unknown"; it adds one to
`totalScans` and to `historyIndex`.  The cycle does complete while the counter
stays below `INT_MAX`. -/
theorem scan_cycle_record (s : State) (log : List HistoryRecord)
    (peers : List BLEAdvertisedDevice) (clock : Option String) (ms : Nat)
    (hr : Reach s log) :
    ((log.length : Int) < INT_MAX → ∃ s1, performScan s peers clock ms = .ok s1) ∧
    ∀ s1, performScan s peers clock ms = .ok s1 →
      ∃ snap, devicesEmitted s1 = .ok snap ∧ snap = (peers.take 100).map deviceEntry ∧
        snap.length = min peers.length 100 ∧
        s1.historyDB.val = s.historyDB.val.set (log.length % 100)
          { timestampStr := getLocalTime clock
            totalDevices := (snap.length : Int)
            namedDevices := ((snap.countP (fun d => decide (d.name ≠ "Unknown")) : Nat) : Int) } ∧
        s.totalScans = (log.length : Int) ∧
        s1.totalScans = s.totalScans + 1 ∧
        s1.historyIndex = s.historyIndex + 1 := by
  have hinv := reach_inv hr
  constructor
  · intro hlt
    obtain ⟨s1, h1, -⟩ := performScan_ok s peers clock ms log.length hinv.index_eq hlt
      (by rw [hinv.total_eq]; exact hlt)
    exact ⟨s1, h1⟩
  · intro s1 hps
    obtain ⟨-, c1, c2, c3, c4, c5, -, -⟩ := hinv.scan_step peers clock ms hps
    have hlen : ((peers.take 100).map deviceEntry).length = min peers.length 100 := by
      simp [List.length_take, Nat.min_comm]
    refine ⟨(peers.take 100).map deviceEntry, ?_, rfl, hlen, ?_, hinv.total_eq, c5, c4⟩
    · unfold devicesEmitted
      rw [c1, readFirst_ok _ _ (Nat.min_le_right _ _), c2]
    · rw [c3, hlen]
      rfl

/-- Instance of `scan_cycle_record`: the first cycle, with three named and two
unnamed devices, stores total 5 and named 3 in slot 0. -/
theorem scan_cycle_record_witness :
    Reach State.init [] ∧
    ∃ s1, performScan State.init fivePeers (some "2026-01-01 08:00:00") 35000 = .ok s1 ∧
      s1.historyDB.val[0]? = some
        { timestampStr := "2026-01-01 08:00:00", totalDevices := 5, namedDevices := 3 } ∧
      s1.totalScans = 1 := by
  have h := scan_cycle_record State.init [] fivePeers (some "2026-01-01 08:00:00") 35000 Reach.init
  obtain ⟨s1, h1⟩ := h.1 (by decide)
  obtain ⟨snap, -, hs, -, hdb, -, ht, -⟩ := h.2 s1 h1
  refine ⟨Reach.init, s1, h1, ?_, ?_⟩
  · rw [hdb, hs]
    decide
  · rw [ht]
    rfl

/-! ## Manual trigger and timer -/

/-- C6 (divergence): after a manual-scan request the timer check compares
`millis()` itself with 30000, so the next poll starts a cycle only when the
32-bit `millis()` value is at least 30000.  At `millis() = 20000` the poll after
the request leaves every global as the request left it. -/
theorem manual_scan_poll (s : State) (now : Nat) (peers : List BLEAdvertisedDevice)
    (clock : Option String) (ms : Nat) :
    (timerDue (handleManualScan s) now = true ↔ 30000 ≤ now % ULONG_RANGE) ∧
    timerDue (handleManualScan s) 20000 = false ∧
    loopPoll (handleManualScan s) 20000 peers clock ms = .ok (handleManualScan s) := by
  have key : ∀ n : Nat, timerDue (handleManualScan s) n = true ↔ 30000 ≤ n % ULONG_RANGE := by
    intro n
    simp only [timerDue, handleManualScan, SCAN_INTERVAL, ULONG_RANGE, decide_eq_true_eq]
    omega
  have h2 : timerDue (handleManualScan s) 20000 = false := by
    cases h : timerDue (handleManualScan s) 20000 with
    | false => rfl
    | true =>
      have := (key 20000).1 h
      simp only [ULONG_RANGE] at this
      omega
  refine ⟨key now, h2, ?_⟩
  simp only [loopPoll, h2]
  rfl

/-- C7: the timer check of `loop` runs `performScan` exactly when
`(now - lastScanTime) mod 2^32 >= 30000`, and otherwise returns the state
unchanged (all globals keep their values). -/
theorem poll_condition (s : State) (now : Nat) (peers : List BLEAdvertisedDevice)
    (clock : Option String) (ms : Nat) :
    (timerDue s now = true ↔
      ((now : Int) - (s.lastScanTime : Int)) % (2 ^ 32 : Int) ≥ 30000) ∧
    (timerDue s now = true ↔
      (now % 2 ^ 32 + 2 ^ 32 - s.lastScanTime % 2 ^ 32) % 2 ^ 32 ≥ 30000) ∧
    loopPoll s now peers clock ms =
      (if ((now : Int) - (s.lastScanTime : Int)) % (2 ^ 32 : Int) ≥ 30000
        then performScan s peers clock ms else .ok s) := by
  have key : timerDue s now = true ↔
      ((now : Int) - (s.lastScanTime : Int)) % (2 ^ 32 : Int) ≥ 30000 := by
    simp only [timerDue, SCAN_INTERVAL, ULONG_RANGE, decide_eq_true_eq]
    norm_num
  have key2 : timerDue s now = true ↔
      (now % 2 ^ 32 + 2 ^ 32 - s.lastScanTime % 2 ^ 32) % 2 ^ 32 ≥ 30000 := by
    simp only [timerDue, SCAN_INTERVAL, ULONG_RANGE, decide_eq_true_eq]
    norm_num
    omega
  refine ⟨key, key2, ?_⟩
  unfold loopPoll
  by_cases h : timerDue s now = true
  · rw [if_pos h, if_pos (key.1 h)]
  · rw [if_neg h, if_neg (fun hc => h (key.2 hc))]

/-! ## Snapshot endpoint -/

theorem reach_quiet {s : State} {log : List HistoryRecord} (h : Reach s log) :
    log = [] → s.currentDeviceCount = 0 ∧ s.lastScanTime = 0 ∧ s.scanInProgress = false := by
  induction h with
  | init => intro _; exact ⟨rfl, rfl, rfl⟩
  | request r _ hc ih =>
    intro hl
    rcases handleClient_state _ _ r hc with h1 | h1
    · rw [h1]; exact ih hl
    · rw [h1]; exact ⟨(ih hl).1, rfl, (ih hl).2.2⟩
  | idle now _ _ ih => exact ih
  | scan now peers clock ms rec _ _ _ _ _ =>
    intro hl
    simp at hl

/-- C8: in the initial state and in every state reached from it without a
completed scan cycle (requests and timer checks that do not fire only), the
devices handler reads no entry and reports `lastScanTime` as "Never". -/
theorem before_first_scan (s : State) (clock : Option String) (hr : Reach s []) :
    devicesEmitted s = .ok [] ∧ lastScanTimeField s clock = "Never" ∧
    handleGetDevices s clock = .ok
      ("\x7b" ++ "\"scanning\":false,\"lastScanTime\":\"Never\",\"devices\":[]" ++ "\x7d") := by
  obtain ⟨h1, h2, h3⟩ := reach_quiet hr rfl
  have hd : devicesEmitted s = .ok [] := by
    unfold devicesEmitted
    rw [h1]
    exact readFirst_nonpos _ _ (Int.le_refl 0)
  have hf : lastScanTimeField s clock = "Never" := by
    simp [lastScanTimeField, h2]
  refine ⟨hd, hf, ?_⟩
  simp only [handleGetDevices, hd, hf, h3, bind, Except.bind, pure, Except.pure]
  congr 1

/-- Instance of `before_first_scan`: a devices read, a manual-scan request and a
timer check at 20 s, from the initial state. -/
theorem before_first_scan_witness :
    Reach (handleManualScan State.init) [] ∧
    devicesEmitted (handleManualScan State.init) = .ok [] ∧
    lastScanTimeField (handleManualScan State.init) (some "2026-01-01 08:00:00") = "Never" :=
  have hr : Reach (handleManualScan State.init) [] :=
    Reach.idle 20000
      (Reach.request Request.manualScan
        (Reach.request (Request.getDevices none) Reach.init rfl) rfl)
      (by decide)
  ⟨hr, (before_first_scan _ (some "2026-01-01 08:00:00") hr).1,
    (before_first_scan _ (some "2026-01-01 08:00:00") hr).2.1⟩

/-- C9: the body sent by `handleGetDevices` carries in its `lastScanTime` field
"Never" when the stored `lastScanTime` is 0 and the clock string otherwise,
whatever `totalScans` is; for every clock outcome the library can produce (a
failure or a formatted time) the field is "Never" exactly when the stored
`lastScanTime` is 0.  After a manual-scan request, in any state, the body sent by
`handleGetDevices` has "Never" in that field and the same `scanning` flag and
device entries as before the request, the body sent by `handleGetHistory` is the
one sent before the request, and the arrays, the counts and `totalScans` are
unchanged. -/
theorem manual_scan_frame (s : State) (clock : Option String) :
    handleGetDevices s clock = (devicesEmitted s).map (fun ds =>
      "\x7b" ++ "\"scanning\":" ++ (if s.scanInProgress then "true" else "false") ++ ","
        ++ "\"lastScanTime\":\"" ++ (if s.lastScanTime = 0 then "Never" else getLocalTime clock)
        ++ "\"," ++ "\"devices\":[" ++ ",".intercalate (ds.map deviceJson) ++ "]\x7d") ∧
    handleGetDevices (handleManualScan s) clock = (devicesEmitted s).map (fun ds =>
      "\x7b" ++ "\"scanning\":" ++ (if s.scanInProgress then "true" else "false") ++ ","
        ++ "\"lastScanTime\":\"" ++ "Never"
        ++ "\"," ++ "\"devices\":[" ++ ",".intercalate (ds.map deviceJson) ++ "]\x7d") ∧
    handleGetHistory (handleManualScan s) = handleGetHistory s ∧
    (∀ tm : Option Tm,
      lastScanTimeField s (clockOutcome tm) = "Never" ↔ s.lastScanTime = 0) ∧
    ((∀ c : Option String, lastScanTimeField s c = "Never") ↔ s.lastScanTime = 0) ∧
    lastScanTimeField s clock
      = (if s.lastScanTime = 0 then "Never" else getLocalTime clock) ∧
    lastScanTimeField (handleManualScan s) clock = "Never" ∧
    devicesEmitted (handleManualScan s) = devicesEmitted s ∧
    historyEmitted (handleManualScan s) = historyEmitted s ∧
    (handleManualScan s).currentDevices = s.currentDevices ∧
    (handleManualScan s).currentDeviceCount = s.currentDeviceCount ∧
    (handleManualScan s).historyDB = s.historyDB ∧
    (handleManualScan s).historyIndex = s.historyIndex ∧
    (handleManualScan s).totalScans = s.totalScans := by
  have hfield : ∀ c : Option String, lastScanTimeField s c = "Never" ↔
      s.lastScanTime = 0 ∨ getLocalTime c = "Never" := by
    intro c
    unfold lastScanTimeField
    by_cases h : s.lastScanTime = 0
    · simp [h]
    · simp [h]
  refine ⟨?_, ?_, rfl, ?_, ?_, rfl, ?_, rfl, rfl, rfl, rfl, rfl, rfl, rfl⟩
  · unfold handleGetDevices lastScanTimeField
    cases devicesEmitted s <;> rfl
  · have hd : devicesEmitted (handleManualScan s) = devicesEmitted s := rfl
    unfold handleGetDevices
    rw [hd]
    cases devicesEmitted s <;> rfl
  · intro tm
    rw [hfield]
    constructor
    · intro h
      rcases h with h | h
      · exact h
      · exact absurd h (getLocalTime_outcome_ne_never tm)
    · intro h
      exact Or.inl h
  · constructor
    · intro h
      rcases (hfield none).1 (h none) with h0 | h0
      · exact h0
      · exact absurd h0 (by decide)
    · intro h c
      exact (hfield c).2 (Or.inl h)
  · simp [lastScanTimeField, handleManualScan]

/-- Instance of `manual_scan_frame` in a state with one completed scan cycle,
five devices in the snapshot and `lastScanTime = 35000`: the devices body shows
the clock string before the manual-scan request and "Never" after it, with the
same five entries. -/
theorem manual_scan_frame_witness :
    stateFive.lastScanTime = 35000 ∧ stateFive.totalScans = 1 ∧
    handleGetDevices stateFive (some "2026-01-01 08:00:40") = .ok
      ("\x7b\"scanning\":false,\"lastScanTime\":\"2026-01-01 08:00:40\",\"devices\":["
      ++ ",".intercalate ((fivePeers.map deviceEntry).map deviceJson) ++ "]\x7d") ∧
    handleGetDevices (handleManualScan stateFive) (some "2026-01-01 08:00:40") = .ok
      ("\x7b\"scanning\":false,\"lastScanTime\":\"Never\",\"devices\":["
      ++ ",".intercalate ((fivePeers.map deviceEntry).map deviceJson) ++ "]\x7d") ∧
    ",".intercalate ((fivePeers.map deviceEntry).map deviceJson)
    = "\x7b\"mac\":\"aa:00:00:00:00:01\",\"name\":\"Tag A\",\"rssi\":-50,"
      ++ "\"proximityLabel\":\"Present\",\"colorClass\":\"status-present\"\x7d,"
      ++ "\x7b\"mac\":\"aa:00:00:00:00:02\",\"name\":\"Unknown\",\"rssi\":-70,"
      ++ "\"proximityLabel\":\"In Proximity\",\"colorClass\":\"status-proximity\"\x7d,"
      ++ "\x7b\"mac\":\"aa:00:00:00:00:03\",\"name\":\"Tag B\",\"rssi\":-90,"
      ++ "\"proximityLabel\":\"Far / Weak\",\"colorClass\":\"status-far\"\x7d,"
      ++ "\x7b\"mac\":\"aa:00:00:00:00:04\",\"name\":\"Unknown\",\"rssi\":-65,"
      ++ "\"proximityLabel\":\"In Proximity\",\"colorClass\":\"status-proximity\"\x7d,"
      ++ "\x7b\"mac\":\"aa:00:00:00:00:05\",\"name\":\"Tag C\",\"rssi\":-85,"
      ++ "\"proximityLabel\":\"Far / Weak\",\"colorClass\":\"status-far\"\x7d" := by
  have h := manual_scan_frame stateFive (some "2026-01-01 08:00:40")
  obtain ⟨c1, c2, c3⟩ := stateFive_counters
  refine ⟨c1, c2, ?_, ?_, five_devices_text⟩
  · rw [h.1, stateFive_devices, c1, c3]
    rfl
  · rw [h.2.1, stateFive_devices, c3]
    rfl

/-! ## Memory safety -/

/-- C10: in every reachable state (the number of completed scans is then below
2^31) the snapshot count lies in `[0, 100]` and `historyIndex = totalScans`.
Every `onResult` call of a scan cycle started there, for any delivered devices,
performs its write in bounds and keeps the count in `[0, 100]`; the slot
`historyIndex % 100` written by `performScan` lies in `[0, 100)` and no access of
`performScan` is out of bounds; the reads of the devices handler and of the
history handler are all in bounds. -/
theorem memory_safety (s : State) (log : List HistoryRecord) (hr : Reach s log)
    (hn : log.length < 2 ^ 31) :
    0 ≤ s.currentDeviceCount ∧ s.currentDeviceCount ≤ 100 ∧
    s.historyIndex = s.totalScans ∧ s.totalScans = (log.length : Int) ∧
    (∀ peers : List BLEAdvertisedDevice, ∃ s2, scanStart (beginScan s) peers = .ok s2 ∧
      0 ≤ s2.currentDeviceCount ∧ s2.currentDeviceCount ≤ 100) ∧
    (0 ≤ Int.tmod s.historyIndex MAX_HISTORY ∧ Int.tmod s.historyIndex MAX_HISTORY < 100) ∧
    (∀ (peers : List BLEAdvertisedDevice) (clock : Option String) (ms : Nat),
      performScan s peers clock ms ≠ .error .outOfBounds) ∧
    (∃ ds, devicesEmitted s = .ok ds) ∧
    (∃ rs, historyEmitted s = .ok rs) ∧
    (∀ clock : Option String, ∃ body, handleGetDevices s clock = .ok body) ∧
    (∃ body, handleGetHistory s = .ok body) := by
  have hinv := reach_inv hr
  have _ := hn
  have hdev : ∃ ds, devicesEmitted s = .ok ds := by
    obtain ⟨c, hc⟩ := Int.eq_ofNat_of_zero_le hinv.count_nonneg
    have h1 := hinv.count_le
    refine ⟨s.currentDevices.val.take c, ?_⟩
    unfold devicesEmitted
    rw [hc]
    exact readFirst_ok _ c (by omega)
  refine ⟨hinv.count_nonneg, hinv.count_le, ?_, hinv.total_eq, ?_, ?_, ?_, ?_, ?_, ?_, ?_⟩
  · rw [hinv.index_eq, hinv.total_eq]
  · intro peers
    obtain ⟨s2, h1, h2, -⟩ := scanStart_spec peers (beginScan s) 0 rfl (by omega)
    exact ⟨s2, h1, by rw [h2]; omega, by rw [h2]; omega⟩
  · rw [hinv.index_eq, tmod_hundred]
    omega
  · intro peers clock ms
    by_cases hlt : (log.length : Int) < INT_MAX
    · obtain ⟨s1, h1, -⟩ := performScan_ok s peers clock ms log.length hinv.index_eq hlt
        (by rw [hinv.total_eq]; exact hlt)
      rw [h1]
      exact fun hc => by cases hc
    · rw [performScan_overflow s peers clock ms log.length hinv.index_eq (by omega)]
      exact fun hc => by cases hc
  · have h0 := hinv.count_nonneg
    have h1 := hinv.count_le
    obtain ⟨c, hc⟩ := Int.eq_ofNat_of_zero_le h0
    refine ⟨s.currentDevices.val.take c, ?_⟩
    unfold devicesEmitted
    rw [hc]
    exact readFirst_ok _ c (by omega)
  · exact ⟨_, historyEmitted_eq hinv⟩
  · intro clock
    obtain ⟨ds, hds⟩ := hdev
    unfold handleGetDevices
    rw [hds]
    exact ⟨_, rfl⟩
  · unfold handleGetHistory
    rw [historyEmitted_eq hinv]
    exact ⟨_, rfl⟩

/-- Instance of `memory_safety` after one scan cycle. -/
theorem memory_safety_witness :
    Reach (stateAfter 1) (logAfter 1) ∧ (logAfter 1).length < 2 ^ 31 ∧
    0 ≤ (stateAfter 1).currentDeviceCount ∧ (stateAfter 1).currentDeviceCount ≤ 100 ∧
    (stateAfter 1).historyIndex = (stateAfter 1).totalScans :=
  have hlen : (logAfter 1).length < 2 ^ 31 :=
    Nat.lt_of_le_of_lt (Nat.le_of_eq logAfter_one_length) (by decide)
  have h := memory_safety _ _ reach_after_one hlen
  ⟨reach_after_one, hlen, h.1, h.2.1, h.2.2.1⟩

end BLEProximity
